import Mathlib

/-!
Verification of the quickgrav N-body simulator core (src/main.rs, src/default_space.rs)
against its natural-language specification.

The floating-point scalars (`f32`) of the source are modelled by real numbers,
i.e. the exact-arithmetic idealization the specification reasons in.
Rendering resources (font asset, cached status-text image, window handle) are
outside the model: no claim mentions them and they do not influence the
simulation or viewpoint state.

Rust operations that can panic or diverge are embedded as `Option`-valued
functions (`none` = the call does not return normally).
-/

set_option maxHeartbeats 1000000

/-- 2D vector (quicksilver `Vector`), modelled over ℝ. -/
@[ext]
structure Vec where
  x : ℝ
  y : ℝ

namespace Vec

def new (a b : ℝ) : Vec := ⟨a, b⟩

instance : Zero Vec := ⟨⟨0, 0⟩⟩
instance : Add Vec := ⟨fun a b => ⟨a.x + b.x, a.y + b.y⟩⟩
instance : Neg Vec := ⟨fun a => ⟨-a.x, -a.y⟩⟩
instance : Sub Vec := ⟨fun a b => ⟨a.x - b.x, a.y - b.y⟩⟩

@[simp] theorem zero_x : (0 : Vec).x = 0 := rfl
@[simp] theorem zero_y : (0 : Vec).y = 0 := rfl
@[simp] theorem add_x (a b : Vec) : (a + b).x = a.x + b.x := rfl
@[simp] theorem add_y (a b : Vec) : (a + b).y = a.y + b.y := rfl
@[simp] theorem neg_x (a : Vec) : (-a).x = -a.x := rfl
@[simp] theorem neg_y (a : Vec) : (-a).y = -a.y := rfl
@[simp] theorem sub_x (a b : Vec) : (a - b).x = a.x - b.x := rfl
@[simp] theorem sub_y (a b : Vec) : (a - b).y = a.y - b.y := rfl

instance : AddCommGroup Vec where
  add_assoc a b c := by ext <;> simp <;> ring
  zero_add a := by ext <;> simp
  add_zero a := by ext <;> simp
  add_comm a b := by ext <;> simp <;> ring
  neg_add_cancel a := by ext <;> simp
  sub_eq_add_neg a b := by ext <;> simp <;> ring
  nsmul := nsmulRec
  zsmul := zsmulRec

/-- The `Vector * f32` operation (componentwise scaling by a scalar on the right). -/
def scale (v : Vec) (c : ℝ) : Vec := ⟨v.x * c, v.y * c⟩

/-- The `Vector / f32` operation (componentwise division by a scalar). -/
noncomputable def divs (v : Vec) (c : ℝ) : Vec := ⟨v.x / c, v.y / c⟩

@[simp] theorem scale_x (v : Vec) (c : ℝ) : (v.scale c).x = v.x * c := rfl
@[simp] theorem scale_y (v : Vec) (c : ℝ) : (v.scale c).y = v.y * c := rfl
@[simp] theorem divs_x (v : Vec) (c : ℝ) : (v.divs c).x = v.x / c := rfl
@[simp] theorem divs_y (v : Vec) (c : ℝ) : (v.divs c).y = v.y / c := rfl

/-- quicksilver `Vector::len2`: squared euclidean length. -/
def len2 (v : Vec) : ℝ := v.x * v.x + v.y * v.y

/-- quicksilver `Vector::len`: euclidean length. -/
noncomputable def len (v : Vec) : ℝ := Real.sqrt v.len2

/-- quicksilver `Vector::normalize`: the vector divided by its length. -/
noncomputable def normalize (v : Vec) : Vec := ⟨v.x / v.len, v.y / v.len⟩

theorem len2_nonneg (v : Vec) : 0 ≤ v.len2 :=
  add_nonneg (mul_self_nonneg _) (mul_self_nonneg _)

theorem len_sq (v : Vec) : v.len ^ 2 = v.len2 :=
  Real.sq_sqrt v.len2_nonneg

@[simp] theorem len2_neg (v : Vec) : (-v).len2 = v.len2 := by
  simp [len2]

@[simp] theorem len_neg (v : Vec) : (-v).len = v.len := by
  simp [len]

theorem normalize_neg (v : Vec) : (-v).normalize = -(v.normalize) := by
  ext <;> simp [normalize, neg_div]

/-- The projection onto the x coordinate, as an additive homomorphism
(used to push `Finset.sum` through components). -/
def xHom : Vec →+ ℝ where
  toFun := Vec.x
  map_zero' := rfl
  map_add' _ _ := rfl

/-- The projection onto the y coordinate, as an additive homomorphism. -/
def yHom : Vec →+ ℝ where
  toFun := Vec.y
  map_zero' := rfl
  map_add' _ _ := rfl

theorem sum_x {ι : Type} (s : Finset ι) (f : ι → Vec) :
    (∑ i in s, f i).x = ∑ i in s, (f i).x :=
  map_sum xHom f s

theorem sum_y {ι : Type} (s : Finset ι) (f : ι → Vec) :
    (∑ i in s, f i).y = ∑ i in s, (f i).y :=
  map_sum yHom f s

theorem scale_add (a b : Vec) (c : ℝ) : (a + b).scale c = a.scale c + b.scale c := by
  ext <;> simp <;> ring

theorem scale_scale (v : Vec) (a b : ℝ) : (v.scale a).scale b = v.scale (a * b) := by
  ext <;> simp <;> ring

@[simp] theorem zero_scale (c : ℝ) : (0 : Vec).scale c = 0 := by
  ext <;> simp

theorem neg_scale (v : Vec) (c : ℝ) : (-v).scale c = -(v.scale c) := by
  ext <;> simp

theorem sum_scale {ι : Type} (s : Finset ι) (f : ι → Vec) (c : ℝ) :
    (∑ i in s, f i).scale c = ∑ i in s, (f i).scale c := by
  ext
  · simp [sum_x, Finset.sum_mul]
  · simp [sum_y, Finset.sum_mul]

end Vec

/-- quicksilver `Color` (rgba components). -/
structure Color where
  r : ℝ
  g : ℝ
  b : ℝ
  a : ℝ

namespace Color

def RED : Color := ⟨1, 0, 0, 1⟩
def GREEN : Color := ⟨0, 1, 0, 1⟩
def BLUE : Color := ⟨0, 0, 1, 1⟩
def CYAN : Color := ⟨0, 1, 1, 1⟩

end Color

/-- The `struct Planet` of src/main.rs. -/
structure Planet where
  position : Vec
  velocity : Vec
  mass : ℝ
  color : Color

instance : Inhabited Planet := ⟨⟨0, 0, 0, ⟨0, 0, 0, 0⟩⟩⟩

/-- The `enum Object` of src/main.rs: the reference a camera slot can point to. -/
inductive Object where
  | Barycenter : Object
  | Planet : Nat → Object
deriving DecidableEq, Repr

/-- The function `default_space::get_planets` of src/default_space.rs: the canonical
starting configuration (one massive central body, three light orbiters). -/
def defaultPlanets : List Planet :=
  [ { position := Vec.new 0 0,   velocity := Vec.new 0 0,   mass := 200, color := Color.RED },
    { position := Vec.new 100 0, velocity := Vec.new 0 1.3, mass := 5,   color := Color.GREEN },
    { position := Vec.new 200 0, velocity := Vec.new 0 1.1, mass := 2,   color := Color.BLUE },
    { position := Vec.new 300 0, velocity := Vec.new 0 0.9, mass := 2,   color := Color.CYAN } ]

/-- One summand of the inner acceleration loop of `integrate`
(src/main.rs lines 295-301): the contribution of planet `jj` to the
acceleration of planet `ii`. -/
noncomputable def gravContrib (planets : List Planet) (ii jj : Nat) : Vec :=
  let planet := planets.getD ii default
  let other_planet := planets.getD jj default
  let distance := other_planet.position - planet.position
  let acceleration_size := other_planet.mass / distance.len2
  distance.normalize.scale acceleration_size

/-- The inner loop of `integrate` (src/main.rs lines 294-301): fold the
contributions of every other planet `jj ≠ ii` into an accumulator starting
from the zero vector. -/
noncomputable def accel (planets : List Planet) (ii : Nat) : Vec :=
  (List.range planets.length).foldl
    (fun acceleration jj =>
      if ii ≠ jj then acceleration + gravContrib planets ii jj else acceleration)
    0

/-- The function `integrate` of src/main.rs (lines 284-312): semi-implicit Euler step.
The source iterates `planets.iter().enumerate()`, pushing one new planet per
index; this is embedded as a map over the index range. -/
noncomputable def integrate (time_step : ℝ) (planets : List Planet) : List Planet :=
  (List.range planets.length).map (fun ii =>
    let planet := planets.getD ii default
    let new_velocity := planet.velocity + (accel planets ii).scale time_step
    { velocity := new_velocity
      position := planet.position + new_velocity.scale time_step
      mass := planet.mass
      color := planet.color })

/-- The barycenter fold of `Space::draw` (src/main.rs lines 224-226):
sum of `position * mass` over the planets, scaled by the reciprocal of the
total mass. -/
noncomputable def barycenter (planets : List Planet) : Vec :=
  (planets.foldl (fun sum planet => sum + planet.position.scale planet.mass) (Vec.new 0 0)).scale
    (1 / (planets.map (fun p => p.mass)).sum)

/-- Outcome of a deserialization attempt (`serde_json::from_slice` or
quicksilver `load::<Vec<Planet>>`): either a decoded planet list or an error. -/
inductive LoadResult where
  | ok : List Planet → LoadResult
  | err : LoadResult

/-- The match arm shared by `Space::new` and the `Key::L` handler:
take the loaded planets on success, `default_space::get_planets()` otherwise. -/
def loadedOrDefault : LoadResult → List Planet
  | .ok planets => planets
  | .err => defaultPlanets

/-- The simulation/viewpoint state of `struct Space` (src/main.rs lines 36-48).
The font asset and the cached status-text image are rendering resources and
are not modelled. -/
structure Space where
  planets : List Planet
  paused : Bool
  time_step : ℝ
  centered_at : Object
  rotate_with : Option Object
  clear_screen : Bool

def DEFAULT_TIME_STEP : ℝ := 0.001

/-- The constructor `Space::new` (src/main.rs lines 119-137): the initial state, given the
outcome of loading the persisted profile. -/
def Space.init (loaded : LoadResult) : Space :=
  { planets := loadedOrDefault loaded
    paused := true
    time_step := DEFAULT_TIME_STEP
    centered_at := Object.Barycenter
    rotate_with := none
    clear_screen := true }

/-- The method `Space::load_planets` (src/main.rs lines 51-59), used by the F2/F3/F4
handlers. `fileContent` is the outcome of `load_file(filename).wait()`
followed by `serde_json::from_slice`: `none` when the file cannot be read
(in which case the source calls `.expect(...)` and panics, embedded as
`none`), `some r` when bytes were read and parsed with outcome `r`. -/
def Space.load_planets (fileContent : Option LoadResult) (s : Space) : Option Space :=
  match fileContent with
  | none => none
  | some r =>
      some { s with
              planets := loadedOrDefault r
              centered_at := Object.Barycenter
              rotate_with := none }

/-- The `Key::C` handler (src/main.rs lines 194-204): advance `centered_at`
one step around `Barycenter, Planet 0, ..., Planet (n-1)`. -/
def cycleCenter (n : Nat) : Object → Object
  | Object.Barycenter => Object.Planet 0
  | Object.Planet i => if i < n - 1 then Object.Planet (i + 1) else Object.Barycenter

/-- The rotation cycle underlying the `Key::R` handler (src/main.rs lines
208-209): `once(None).chain(once(Some(Barycenter))).chain(some_planets)`,
the list whose infinite repetition the handler iterates. -/
def rotList (n : Nat) : List (Option Object) :=
  none :: some Object.Barycenter :: (List.range n).map (fun i => some (Object.Planet i))

/-- The `Key::R` handler's selection logic (src/main.rs lines 206-216):
position the cycled iterator just past the current `rotate_with`, take the
next value, and take one more if that value is `Some` of the current
`centered_at`. Returns `none` when `rotate_with` does not occur in the
cycle, in which case the source's `find` on the cycled iterator never
terminates. -/
def nextRotation (n : Nat) (centered_at : Object) (rotate_with : Option Object) :
    Option (Option Object) :=
  match (rotList n).findIdx? (fun o => o = rotate_with) with
  | none => none
  | some idx =>
      let m := (rotList n).length
      some (match (rotList n).getD ((idx + 1) % m) none with
        | some o => if o = centered_at then (rotList n).getD ((idx + 2) % m) none else some o
        | none => none)

/-- The commands `Space::event` (src/main.rs lines 146-221) reacts to,
abstracted from the input device exactly as the spec's command table does.
Load commands carry the outcome of the file/persistence read they trigger;
`save` carries whether the persistence write succeeded. -/
inductive Command where
  | tab : Command
  | pauseToggle : Command
  | multiply : Command
  | divide : Command
  | add : Command
  | subtract : Command
  | save : Bool → Command
  | loadProfile : LoadResult → Command
  | f1 : Command
  | f2 : Option LoadResult → Command
  | f3 : Option LoadResult → Command
  | f4 : Option LoadResult → Command
  | cycleCenterKey : Command
  | cycleRotationKey : Command
  | other : Command

/-- The handler `Space::event` (src/main.rs lines 146-221). `none` models a panic
(failed `save`, missing file in `load_planets`) or the non-terminating
`find` of the `Key::R` handler. The `Add`/`Subtract` arms only change the
window's update rate, which lives outside the core state. -/
noncomputable def Space.event (s : Space) : Command → Option Space
  | .tab => some { s with clear_screen := !s.clear_screen }
  | .pauseToggle => some { s with paused := !s.paused }
  | .multiply => some { s with time_step := s.time_step * 2 }
  | .divide => some { s with time_step := s.time_step / 2 }
  | .add => some s
  | .subtract => some s
  | .save ok => if ok then some s else none
  | .loadProfile r => some { s with planets := loadedOrDefault r }
  | .f1 => some { s with planets := defaultPlanets }
  | .f2 fileContent => s.load_planets fileContent
  | .f3 fileContent => s.load_planets fileContent
  | .f4 fileContent => s.load_planets fileContent
  | .cycleCenterKey => some { s with centered_at := cycleCenter s.planets.length s.centered_at }
  | .cycleRotationKey =>
      (nextRotation s.planets.length s.centered_at s.rotate_with).map
        (fun next_rot => { s with rotate_with := next_rot })
  | .other => some s

/-- The method `Space::update` (src/main.rs lines 139-144): one tick, integrating only
while not paused. -/
noncomputable def Space.tick (s : Space) : Space :=
  if s.paused then s else { s with planets := integrate s.time_step s.planets }

def WIDTH : ℝ := 1200
def HEIGHT : ℝ := 900

/-- Degrees to radians (`f32::to_radians`). -/
noncomputable def toRadians (d : ℝ) : ℝ := d * Real.pi / 180

/-- Radians to degrees (`f32::to_degrees`). -/
noncomputable def toDegrees (r : ℝ) : ℝ := r * 180 / Real.pi

/-- The `atan2` function (`f32::atan2`), written out piecewise with `arctan`. -/
noncomputable def atan2 (b a : ℝ) : ℝ :=
  if 0 < a then Real.arctan (b / a)
  else if a < 0 ∧ 0 ≤ b then Real.arctan (b / a) + Real.pi
  else if a < 0 ∧ b < 0 then Real.arctan (b / a) - Real.pi
  else if a = 0 ∧ 0 < b then Real.pi / 2
  else if a = 0 ∧ b < 0 then -(Real.pi / 2)
  else 0

/-- quicksilver `Vector::angle`: the polar angle of the vector, in degrees. -/
noncomputable def Vec.angle (v : Vec) : ℝ := toDegrees (atan2 v.y v.x)

/-- quicksilver `Transform` restricted to the affine transforms the program
builds (all of `IDENTITY`, `rotate`, `translate` and their products have
bottom row `0 0 1`): a 2x2 linear part plus a translation column. -/
structure Transform where
  a11 : ℝ
  a12 : ℝ
  a21 : ℝ
  a22 : ℝ
  tx : ℝ
  ty : ℝ

namespace Transform

def IDENTITY : Transform := ⟨1, 0, 0, 1, 0, 0⟩

/-- quicksilver `Transform::rotate(angle)`: rotation about the origin by an
angle given in degrees. -/
noncomputable def rotate (angle : ℝ) : Transform :=
  let c := Real.cos (toRadians angle)
  let s := Real.sin (toRadians angle)
  ⟨c, -s, s, c, 0, 0⟩

/-- quicksilver `Transform::translate(v)`. -/
def translate (v : Vec) : Transform := ⟨1, 0, 0, 1, v.x, v.y⟩

/-- quicksilver `Transform` multiplication (`a * b`, applying `b` first):
the 3x3 matrix product restricted to affine transforms. -/
def mul (a b : Transform) : Transform :=
  ⟨a.a11 * b.a11 + a.a12 * b.a21,
   a.a11 * b.a12 + a.a12 * b.a22,
   a.a21 * b.a11 + a.a22 * b.a21,
   a.a21 * b.a12 + a.a22 * b.a22,
   a.a11 * b.tx + a.a12 * b.ty + a.tx,
   a.a21 * b.tx + a.a22 * b.ty + a.ty⟩

end Transform

/-- quicksilver `Rectangle` (top-left corner and size). -/
structure Rectangle where
  pos : Vec
  size : Vec

/-- quicksilver `View::new_transformed(rectangle, transform)`: the rectangle
shown in the window and the transform applied to every world-space object.
Per the source comment (src/main.rs lines 249-250) the transform acts on the
content only; the view's rectangle is stored untransformed. -/
structure View where
  rectangle : Rectangle
  transform : Transform

/-- The rectangle `Rectangle::new(-size / 2.0, size)` of `Space::draw` (src/main.rs
line 247): the output viewport, centered at the origin. -/
noncomputable def viewRectangle : Rectangle :=
  ⟨(-(Vec.new WIDTH HEIGHT)).divs 2, Vec.new WIDTH HEIGHT⟩

/-- The `center` match of `Space::draw` (src/main.rs lines 228-233).
`self.planets[i]` is an unchecked index: `none` models the out-of-bounds
panic. -/
noncomputable def Space.drawCenter (s : Space) : Option Vec :=
  match s.centered_at with
  | Object.Planet i => (s.planets[i]?).map (fun p => p.position)
  | Object.Barycenter => some (barycenter s.planets)

/-- The `rotate` match of `Space::draw` (src/main.rs lines 234-243), given
the already-resolved center. -/
noncomputable def Space.drawRotate (s : Space) (center : Vec) : Option Transform :=
  match s.rotate_with with
  | none => some Transform.IDENTITY
  | some object =>
      (show Option Vec from
        match object with
        | Object.Barycenter => some (barycenter s.planets)
        | Object.Planet i => (s.planets[i]?).map (fun p => p.position)).map
        (fun target => Transform.rotate (-(Vec.angle (target - center))))

/-- The view computation of `Space::draw` (src/main.rs lines 228-251):
resolve the center, resolve the rotation, and install
`View::new_transformed(view_rectangle, rotate * translate(-center))`. -/
noncomputable def Space.drawView (s : Space) : Option View :=
  (s.drawCenter).bind (fun center =>
    (s.drawRotate center).map (fun rotate =>
      ⟨viewRectangle, rotate.mul (Transform.translate (-center))⟩))

/-! ## Specification-side definitions

The following definitions transcribe the specification's own formulas
(spec.md sections 4.2-4.5); the theorems below compare them with the
definitions taken from the source. -/

/-- Spec formula (section 4.2, step 1): acceleration of planet `i` is the sum
over every other planet `j` of
`(pos_j - pos_i) / |pos_j - pos_i| * (mass_j / |pos_j - pos_i|^2)`. -/
noncomputable def accelSpec (planets : List Planet) (i : Nat) : Vec :=
  ∑ j in (Finset.range planets.length).erase i,
    (((planets.getD j default).position - (planets.getD i default).position).divs
        ((planets.getD j default).position - (planets.getD i default).position).len).scale
      ((planets.getD j default).mass /
        ((planets.getD j default).position - (planets.getD i default).position).len ^ 2)

/-- Spec algorithm (section 4.2, steps 2-4): semi-implicit Euler —
`v_i' = v_i + a_i * dt`, `p_i' = p_i + v_i' * dt`, mass and color pass
through unchanged. -/
noncomputable def advanceSpec (time_step : ℝ) (planets : List Planet) : List Planet :=
  (List.range planets.length).map (fun i =>
    let p := planets.getD i default
    let vNew := p.velocity + (accelSpec planets i).scale time_step
    { position := p.position + vNew.scale time_step
      velocity := vNew
      mass := p.mass
      color := p.color })

/-- Spec formula (section 4.3): barycenter is the mass-weighted average
position `Σ(mass_i * pos_i) / Σ(mass_i)`. -/
noncomputable def barycenterSpec (planets : List Planet) : Vec :=
  Vec.divs (planets.map (fun p => p.position.scale p.mass)).sum
    (planets.map (fun p => p.mass)).sum

/-- The midpoint of two points. -/
noncomputable def midpoint2 (a b : Vec) : Vec := (a + b).divs 2

/-- Total momentum `Σ(mass_i * velocity_i)` (spec section 8). -/
def totalMomentum (planets : List Planet) : Vec :=
  (planets.map (fun p => p.velocity.scale p.mass)).sum

/-- The gravitational force exerted on planet `ii` by planet `jj`:
mass of `ii` times the acceleration contribution of `jj`. -/
noncomputable def forceOn (planets : List Planet) (ii jj : Nat) : Vec :=
  (gravContrib planets ii jj).scale (planets.getD ii default).mass

/-- Validity of one reference (spec section 3): `Planet i` requires
`i < n`. -/
def refValid (n : Nat) : Object → Prop
  | Object.Barycenter => True
  | Object.Planet i => i < n

instance (n : Nat) (o : Object) : Decidable (refValid n o) := by
  cases o <;> simp [refValid] <;> infer_instance

/-- Validity of both reference slots of a state. -/
def Space.refsValid (s : Space) : Prop :=
  refValid s.planets.length s.centered_at ∧
    ∀ o, s.rotate_with = some o → refValid s.planets.length o

/-- Spec section 4.5: the resolved center point — the barycenter when
`centered_at = Barycenter`, else the referenced planet's position. -/
noncomputable def centerSpec (s : Space) : Option Vec :=
  match s.centered_at with
  | Object.Barycenter => some (barycenter s.planets)
  | Object.Planet i => (s.planets[i]?).map (fun p => p.position)

/-- Spec section 4.5: the orientation angle — `0` if `rotate_with = None`,
otherwise the negated angle of the vector from the center to the resolved
rotate-target position. -/
noncomputable def orientationAngleSpec (s : Space) (center : Vec) : Option ℝ :=
  match s.rotate_with with
  | none => some 0
  | some o =>
      (show Option Vec from
        match o with
        | Object.Barycenter => some (barycenter s.planets)
        | Object.Planet i => (s.planets[i]?).map (fun p => p.position)).map
        (fun target => -(Vec.angle (target - center)))

/-- Spec section 4.5: the output — the untransformed viewport rectangle
together with the rotation about the origin composed with the translation
by `-center`. -/
noncomputable def viewpointSpec (s : Space) : Option View :=
  (centerSpec s).bind (fun center =>
    (orientationAngleSpec s center).map (fun angle =>
      ⟨viewRectangle, (Transform.rotate angle).mul (Transform.translate (-center))⟩))

/-! ## Persistence adapter (spec-modelled)

The program serializes with `quicksilver::saving::{save, load}` and
`serde_json`, none of which is part of this repository's sources. -/

/-- Modelled from the spec: `save(planets) -> byte buffer` (section 4.6) —
quicksilver/serde serialization is outside src/, so the buffer is modelled
as the structural encoding the spec describes: the ordered planet sequence,
each entry contributing its position, velocity, mass and color fields. -/
def savePlanets (planets : List Planet) : List ℝ :=
  planets.flatMap (fun p =>
    [p.position.x, p.position.y, p.velocity.x, p.velocity.y, p.mass,
     p.color.r, p.color.g, p.color.b, p.color.a])

/-- Modelled from the spec: `load(buffer) -> PlanetSet or error`
(section 4.6) — decode the structural encoding of `savePlanets`,
failing on any buffer that is not a whole number of well-formed entries. -/
def loadPlanets : List ℝ → Option (List Planet)
  | [] => some []
  | px :: py :: vx :: vy :: m :: cr :: cg :: cb :: ca :: rest =>
      (loadPlanets rest).map
        (fun ps => { position := ⟨px, py⟩, velocity := ⟨vx, vy⟩, mass := m,
                     color := ⟨cr, cg, cb, ca⟩ } :: ps)
  | _ => none

/-! ## Bridging lemmas: folds to sums -/

theorem foldl_add_eq_sum {α M : Type} [AddCommMonoid M] (g : α → M) :
    ∀ (l : List α) (init : M),
      l.foldl (fun a j => a + g j) init = init + (l.map g).sum
  | [], init => by simp
  | j :: l, init => by
      simp only [List.foldl_cons, List.map_cons, List.sum_cons]
      rw [foldl_add_eq_sum g l (init + g j), add_assoc]

theorem foldl_ite_add_eq_sum {α M : Type} [AddCommMonoid M] (P : α → Prop)
    [DecidablePred P] (g : α → M) :
    ∀ (l : List α) (init : M),
      l.foldl (fun a j => if P j then a + g j else a) init
        = init + (l.map (fun j => if P j then g j else 0)).sum
  | [], init => by simp
  | j :: l, init => by
      simp only [List.foldl_cons, List.map_cons, List.sum_cons]
      rw [foldl_ite_add_eq_sum P g l]
      by_cases h : P j <;> simp [h, add_assoc]

theorem range_map_sum {M : Type} [AddCommMonoid M] (g : Nat → M) :
    ∀ n : Nat, ((List.range n).map g).sum = ∑ j in Finset.range n, g j
  | 0 => by simp
  | n + 1 => by
      rw [List.range_succ, Finset.sum_range_succ, List.map_append, List.sum_append,
        range_map_sum g n]
      simp

theorem map_sum_eq_range_sum {M : Type} [AddCommMonoid M] (h : Planet → M) :
    ∀ planets : List Planet,
      (planets.map h).sum = ∑ i in Finset.range planets.length, h (planets.getD i default)
  | [] => by simp
  | p :: ps => by
      simp only [List.map_cons, List.sum_cons, List.length_cons]
      rw [Finset.sum_range_succ', map_sum_eq_range_sum h ps]
      simp [add_comm]

/-! ## Reference Selector lemmas -/

theorem rotList_length (n : Nat) : (rotList n).length = n + 2 := by
  simp [rotList]

theorem rotList_nodup (n : Nat) : (rotList n).Nodup := by
  simp only [rotList, List.nodup_cons]
  refine ⟨?_, ?_, ?_⟩
  · simp
  · simp
  · exact (List.nodup_range n).map (fun a b h => by simpa using h)

theorem cycleCenter_iterate (n : Nat) :
    ∀ k, k < n → (cycleCenter n)^[k + 1] Object.Barycenter = Object.Planet k := by
  intro k
  induction k with
  | zero =>
      intro _
      show (cycleCenter n)^[1] Object.Barycenter = Object.Planet 0
      rw [Function.iterate_one]
      rfl
  | succ k ih =>
      intro hk
      rw [Function.iterate_succ_apply', ih (by omega)]
      show cycleCenter n (Object.Planet k) = Object.Planet (k + 1)
      simp only [cycleCenter]
      rw [if_pos (by omega)]

/-- C5: for every planet set of size `n ≥ 1`, the cycle-center command
advances `centered_at` along
`Barycenter → Planet 0 → Planet 1 → … → Planet (n-1) → Barycenter`, the
initial state is `Barycenter`, and `n + 1` applications starting from
`Barycenter` return to `Barycenter`. -/
theorem cycle_center_order (n : Nat) (hn : 1 ≤ n) :
    (∀ r : LoadResult, (Space.init r).centered_at = Object.Barycenter) ∧
    cycleCenter n Object.Barycenter = Object.Planet 0 ∧
    (∀ i : Nat, i + 1 < n → cycleCenter n (Object.Planet i) = Object.Planet (i + 1)) ∧
    cycleCenter n (Object.Planet (n - 1)) = Object.Barycenter ∧
    (cycleCenter n)^[n + 1] Object.Barycenter = Object.Barycenter := by
  refine ⟨fun r => rfl, rfl, ?_, ?_, ?_⟩
  · intro i hi
    simp only [cycleCenter]
    rw [if_pos (by omega)]
  · simp only [cycleCenter]
    rw [if_neg (by omega)]
  · have h := cycleCenter_iterate n (n - 1) (by omega)
    have hsplit : n + 1 = (n - 1 + 1) + 1 := by omega
    rw [hsplit, Function.iterate_succ_apply', h]
    simp only [cycleCenter]
    rw [if_neg (by omega)]

/-- Witness for C5 at `n = 2`. -/
theorem cycle_center_order_witness :
    1 ≤ 2 ∧ (cycleCenter 2)^[2 + 1] Object.Barycenter = Object.Barycenter :=
  ⟨by norm_num, (cycle_center_order 2 (by norm_num)).2.2.2.2⟩

/-! ## Draw-time index safety -/

theorem drawCenter_isSome (s : Space) (h : refValid s.planets.length s.centered_at) :
    (s.drawCenter).isSome := by
  cases hc : s.centered_at with
  | Barycenter => simp [Space.drawCenter, hc]
  | Planet i =>
      have hi : i < s.planets.length := by rw [hc] at h; exact h
      simp [Space.drawCenter, hc, List.getElem?_eq_getElem hi]

theorem drawRotate_isSome (s : Space) (center : Vec)
    (h : ∀ o, s.rotate_with = some o → refValid s.planets.length o) :
    (s.drawRotate center).isSome := by
  cases hr : s.rotate_with with
  | none => simp [Space.drawRotate, hr]
  | some o =>
      cases o with
      | Barycenter => simp [Space.drawRotate, hr]
      | Planet i =>
          have hi : i < s.planets.length := h _ hr
          simp [Space.drawRotate, hr, List.getElem?_eq_getElem hi]

theorem drawView_isSome (s : Space) (h : s.refsValid) : (s.drawView).isSome := by
  obtain ⟨c, hc⟩ := Option.isSome_iff_exists.mp (drawCenter_isSome s h.1)
  obtain ⟨t, ht⟩ := Option.isSome_iff_exists.mp (drawRotate_isSome s c h.2)
  simp [Space.drawView, hc, ht]

/-- C10: resolving references in `draw` indexes the planet vector without a
bounds check — when every held `Planet i` reference satisfies
`i < planets.length`, `draw` resolves without out-of-bounds access; when
`centered_at` holds an out-of-range index the unchecked access fails (the
embedded `draw` returns `none`, the panic); and `cycleCenter` only produces
in-range references when the planet set is non-empty. -/
theorem draw_index_safety :
    (∀ s : Space, s.refsValid → (s.drawView).isSome) ∧
    (∀ (s : Space) (i : Nat), s.centered_at = Object.Planet i →
        s.planets.length ≤ i → s.drawView = none) ∧
    (∀ n : Nat, 1 ≤ n → ∀ o : Object, refValid n (cycleCenter n o)) := by
  refine ⟨drawView_isSome, ?_, ?_⟩
  · intro s i h1 h2
    simp [Space.drawView, Space.drawCenter, h1, List.getElem?_eq_none h2]
  · intro n hn o
    cases o with
    | Barycenter =>
        show refValid n (Object.Planet 0)
        show 0 < n
        omega
    | Planet i =>
        simp only [cycleCenter]
        by_cases h : i < n - 1
        · rw [if_pos h]
          show i + 1 < n
          omega
        · rw [if_neg h]
          trivial

/-- Witness for C10: the initial state has valid references and its draw
resolves. -/
theorem draw_index_safety_witness :
    (Space.init LoadResult.err).refsValid ∧
    ((Space.init LoadResult.err).drawView).isSome := by
  have hv : (Space.init LoadResult.err).refsValid := by
    refine ⟨trivial, ?_⟩
    intro o ho
    simp [Space.init] at ho
  exact ⟨hv, draw_index_safety.1 _ hv⟩

/-! ## Cycle-rotation mutual exclusion -/

theorem nextRotation_ne_centered {n : Nat} {ca : Object} {rw0 nr : Option Object}
    (h : nextRotation n ca rw0 = some nr) : nr ≠ some ca := by
  unfold nextRotation at h
  cases hf : (rotList n).findIdx? (fun o => o = rw0) with
  | none => rw [hf] at h; exact absurd h (by simp)
  | some idx =>
      rw [hf] at h
      simp only [Option.some.injEq] at h
      subst h
      have hlen : (rotList n).length = n + 2 := rotList_length n
      have hmpos : 0 < (rotList n).length := by omega
      have h1lt : (idx + 1) % (rotList n).length < (rotList n).length := Nat.mod_lt _ hmpos
      have h2lt : (idx + 2) % (rotList n).length < (rotList n).length := Nat.mod_lt _ hmpos
      cases hc : (rotList n).getD ((idx + 1) % (rotList n).length) none with
      | none => simp
      | some o =>
          show (if o = ca then (rotList n).getD ((idx + 2) % (rotList n).length) none
              else some o) ≠ some ca
          by_cases ho : o = ca
          · rw [if_pos ho]
            subst ho
            intro habs
            have hne : (idx + 1) % (rotList n).length ≠ (idx + 2) % (rotList n).length := by
              intro heq
              have hdvd : (rotList n).length ∣ (idx + 2) - (idx + 1) :=
                (Nat.modEq_iff_dvd' (by omega)).mp heq
              have hone : (idx + 2) - (idx + 1) = 1 := by omega
              rw [hone] at hdvd
              have h1 := Nat.dvd_one.mp hdvd
              omega
            rw [List.getD_eq_getElem _ _ h1lt] at hc
            rw [List.getD_eq_getElem _ _ h2lt] at habs
            exact hne (((rotList_nodup n).getElem_inj_iff).mp (hc.trans habs.symm))
          · rw [if_neg ho]
            simp [ho]

/-- C2 (amended): immediately after any cycle-rotation command that returns
(i.e. whose current `rotate_with` occurs in the rotation cycle), the new
`rotate_with` differs from `centered_at`, which the command leaves
unchanged — the skip in the `Key::R` handler enforces this. (Cycle-center
commands do NOT preserve the mutual-exclusion invariant; see the
counterexample.) -/
theorem rotation_cycle_mutual_exclusion (s s' : Space)
    (h : s.event Command.cycleRotationKey = some s') :
    s'.centered_at = s.centered_at ∧ s'.rotate_with ≠ some s'.centered_at := by
  simp only [Space.event] at h
  cases hnr : nextRotation s.planets.length s.centered_at s.rotate_with with
  | none => rw [hnr] at h; exact absurd h (by simp)
  | some nr =>
      rw [hnr] at h
      simp only [Option.map_some', Option.some.injEq] at h
      subst h
      exact ⟨rfl, nextRotation_ne_centered hnr⟩

/-- A state with the default planets and both references pointing at
planets (used as a concrete input below). -/
def exSpace : Space :=
  { planets := defaultPlanets
    paused := true
    time_step := DEFAULT_TIME_STEP
    centered_at := Object.Planet 2
    rotate_with := some (Object.Planet 1)
    clear_screen := true }

/-- The state reached from the initial state by one cycle-rotation
command. -/
def exAfterRotate : Space :=
  { Space.init LoadResult.err with rotate_with := some (Object.Planet 0) }

/-- Witness for C2 (amended), at the initial state: the cycle-rotation
command returns and its result satisfies mutual exclusion. -/
theorem rotation_cycle_mutual_exclusion_witness :
    (Space.init LoadResult.err).event Command.cycleRotationKey = some exAfterRotate ∧
    exAfterRotate.rotate_with ≠ some exAfterRotate.centered_at :=
  ⟨rfl, (rotation_cycle_mutual_exclusion (Space.init LoadResult.err) exAfterRotate rfl).2⟩

/-- C2 counterexample: from the initial state (a reachable state), the run
cycle-rotation then cycle-center ends with `rotate_with = some (Planet 0)`
and `centered_at = Planet 0` — the cycle-center command does not preserve
the mutual-exclusion invariant. -/
theorem cycle_center_breaks_mutual_exclusion :
    (((Space.init LoadResult.err).event Command.cycleRotationKey).bind
        (fun s1 => s1.event Command.cycleCenterKey)).map
      (fun s2 => (s2.centered_at, s2.rotate_with))
      = some (Object.Planet 0, some (Object.Planet 0)) := rfl

/-! ## Reference reset on planet-set replacement -/

/-- C3 (amended): only the named-file load commands (F2/F3/F4, via
`load_planets`) reset `centered_at` to `Barycenter` and `rotate_with` to
`None`; the reset-default command (F1) and the profile load (L) replace the
planet set wholesale but leave both references unchanged; ordinary
integration ticks preserve both references. -/
theorem reference_reset_behavior :
    (∀ (fc : Option LoadResult) (s s' : Space), s.load_planets fc = some s' →
        s'.centered_at = Object.Barycenter ∧ s'.rotate_with = none) ∧
    (∀ s : Space,
        (s.tick).centered_at = s.centered_at ∧ (s.tick).rotate_with = s.rotate_with) ∧
    (∀ s s' : Space, s.event Command.f1 = some s' →
        s'.planets = defaultPlanets ∧
        s'.centered_at = s.centered_at ∧ s'.rotate_with = s.rotate_with) ∧
    (∀ (r : LoadResult) (s s' : Space), s.event (Command.loadProfile r) = some s' →
        s'.centered_at = s.centered_at ∧ s'.rotate_with = s.rotate_with) := by
  refine ⟨?_, ?_, ?_, ?_⟩
  · intro fc s s' h
    cases fc with
    | none => exact absurd h (by simp [Space.load_planets])
    | some r =>
        simp only [Space.load_planets, Option.some.injEq] at h
        rw [← h]
        exact ⟨rfl, rfl⟩
  · intro s
    unfold Space.tick
    split <;> exact ⟨rfl, rfl⟩
  · intro s s' h
    simp only [Space.event, Option.some.injEq] at h
    rw [← h]
    exact ⟨rfl, rfl, rfl⟩
  · intro r s s' h
    simp only [Space.event, Option.some.injEq] at h
    rw [← h]
    exact ⟨rfl, rfl⟩

/-- The state produced by a named load with a parse failure: default
planets, references reset. -/
def exAfterNamedLoad : Space :=
  { exSpace with
      planets := defaultPlanets
      centered_at := Object.Barycenter
      rotate_with := none }

/-- Witness for C3 (amended): a concrete named load resets both
references. -/
theorem reference_reset_behavior_witness :
    exSpace.load_planets (some LoadResult.err) = some exAfterNamedLoad ∧
    exAfterNamedLoad.centered_at = Object.Barycenter ∧
    exAfterNamedLoad.rotate_with = none :=
  ⟨rfl, (reference_reset_behavior.1 (some LoadResult.err) exSpace exAfterNamedLoad rfl).1,
    (reference_reset_behavior.1 (some LoadResult.err) exSpace exAfterNamedLoad rfl).2⟩

/-- C3 counterexample: reset-default (F1), a command that replaces the
planet set wholesale, leaves `centered_at = Planet 2` and
`rotate_with = some (Planet 1)` instead of resetting them. -/
theorem reset_default_keeps_references :
    (exSpace.event Command.f1).map (fun t => (t.centered_at, t.rotate_with))
        = some (Object.Planet 2, some (Object.Planet 1)) ∧
    Object.Planet 2 ≠ Object.Barycenter :=
  ⟨rfl, by decide⟩

/-! ## Load-failure fallback -/

/-- C4 (amended): when the named file is readable, a malformed buffer or
schema mismatch falls back to the default generator's planets and is not
fatal; the profile load (startup and L) falls back to the default planets
on any failure; but a named load whose file cannot be read panics
(`expect`), i.e. that failure IS propagated as a fatal error. -/
theorem load_failure_fallback :
    (∀ s : Space, s.load_planets (some LoadResult.err)
        = some { s with planets := defaultPlanets,
                        centered_at := Object.Barycenter, rotate_with := none }) ∧
    (∀ (s : Space) (r : LoadResult), (s.load_planets (some r)).isSome) ∧
    (∀ s : Space, s.event (Command.loadProfile LoadResult.err)
        = some { s with planets := defaultPlanets }) ∧
    (Space.init LoadResult.err).planets = defaultPlanets ∧
    (∀ s : Space, s.load_planets none = none) :=
  ⟨fun _ => rfl, fun _ _ => rfl, fun _ => rfl, rfl, fun _ => rfl⟩

/-- C4 counterexample: a named load whose file is missing does not return a
planet set at all — the embedded handler yields `none` (the `expect`
panic), contradicting "the failure is never propagated as a fatal
error". -/
theorem missing_file_is_fatal : exSpace.load_planets none = none := rfl

/-! ## Persistence round-trip -/

/-- C8: deserializing the buffer produced by serializing a valid planet set
yields the original planet set, entry by entry in order. -/
theorem save_load_roundtrip : ∀ planets : List Planet,
    (∀ p ∈ planets, 0 < p.mass) →
    loadPlanets (savePlanets planets) = some planets := by
  intro planets hm
  induction planets with
  | nil => rfl
  | cons p ps ih =>
      have hrec := ih (fun q hq => hm q (List.mem_cons_of_mem p hq))
      have hstep : loadPlanets (savePlanets (p :: ps))
          = (loadPlanets (savePlanets ps)).map
              (fun l => { position := ⟨p.position.x, p.position.y⟩,
                          velocity := ⟨p.velocity.x, p.velocity.y⟩,
                          mass := p.mass,
                          color := ⟨p.color.r, p.color.g, p.color.b, p.color.a⟩ } :: l) := rfl
      rw [hstep, hrec]
      rfl

/-- Witness for C8 at the default planet set. -/
theorem save_load_roundtrip_witness :
    (∀ p ∈ defaultPlanets, 0 < p.mass) ∧
    loadPlanets (savePlanets defaultPlanets) = some defaultPlanets := by
  have hm : ∀ p ∈ defaultPlanets, 0 < p.mass := by
    intro p hp
    simp only [defaultPlanets, List.mem_cons, List.not_mem_nil, or_false] at hp
    rcases hp with h | h | h | h <;> subst h <;> norm_num
  exact ⟨hm, save_load_roundtrip defaultPlanets hm⟩

/-! ## Barycenter -/

theorem barycenter_eq_spec (planets : List Planet) :
    barycenter planets = barycenterSpec planets := by
  unfold barycenter barycenterSpec
  rw [show Vec.new 0 0 = (0 : Vec) from rfl,
    foldl_add_eq_sum (fun p => p.position.scale p.mass) planets 0, zero_add]
  ext <;> simp [div_eq_mul_inv]

/-- C6: the computed barycenter is the mass-weighted average position
`Σ(mass_i * pos_i) / Σ(mass_i)`, and for a two-body system with equal
masses it is exactly the midpoint of the two positions. -/
theorem barycenter_mass_weighted :
    (∀ planets : List Planet, planets ≠ [] → (∀ p ∈ planets, 0 < p.mass) →
        barycenter planets = barycenterSpec planets) ∧
    (∀ p1 p2 : Planet, 0 < p1.mass → p1.mass = p2.mass →
        barycenter [p1, p2] = midpoint2 p1.position p2.position) := by
  constructor
  · intro planets _ _
    exact barycenter_eq_spec planets
  · intro p1 p2 hm heq
    have hne : p1.mass ≠ 0 := ne_of_gt hm
    unfold barycenter midpoint2
    simp only [List.foldl_cons, List.foldl_nil, List.map_cons, List.map_nil,
      List.sum_cons, List.sum_nil]
    rw [← heq]
    ext <;> simp [Vec.new] <;> field_simp <;> ring

/-- Two equal-mass bodies at distinct positions (concrete input). -/
def pA : Planet :=
  { position := Vec.new 1 2, velocity := Vec.new 0 0, mass := 3, color := Color.RED }

/-- Second equal-mass body. -/
def pB : Planet :=
  { position := Vec.new 5 8, velocity := Vec.new 0 0, mass := 3, color := Color.BLUE }

/-- Witness for C6: a concrete two-body system with equal masses has its
barycenter at the midpoint. -/
theorem barycenter_mass_weighted_witness :
    0 < pA.mass ∧ pA.mass = pB.mass ∧
    barycenter [pA, pB] = midpoint2 pA.position pB.position := by
  have h1 : 0 < pA.mass := by norm_num [pA]
  exact ⟨h1, rfl, barycenter_mass_weighted.2 pA pB h1 rfl⟩

/-! ## Integrator refinement -/

theorem accel_eq_sum_ite (planets : List Planet) (ii : Nat) :
    accel planets ii
      = ∑ j in Finset.range planets.length,
          if ii ≠ j then gravContrib planets ii j else 0 := by
  unfold accel
  rw [foldl_ite_add_eq_sum (fun jj => ii ≠ jj) (fun jj => gravContrib planets ii jj)
      (List.range planets.length) 0,
    zero_add, range_map_sum]

theorem accel_eq_sum_erase (planets : List Planet) (ii : Nat) :
    accel planets ii
      = ∑ j in (Finset.range planets.length).erase ii, gravContrib planets ii j := by
  rw [accel_eq_sum_ite, ← Finset.sum_filter, Finset.filter_ne]

theorem accelSpec_eq_accel (planets : List Planet) (i : Nat) :
    accelSpec planets i = accel planets i := by
  rw [accel_eq_sum_erase]
  unfold accelSpec
  refine Finset.sum_congr rfl ?_
  intro j _
  rw [Vec.len_sq]
  rfl

theorem integrate_eq_advanceSpec (time_step : ℝ) (planets : List Planet) :
    integrate time_step planets = advanceSpec time_step planets := by
  unfold integrate advanceSpec
  refine List.map_congr_left ?_
  intro ii _
  rw [accelSpec_eq_accel]

theorem range_map_getD {β : Type} [Inhabited β] (n : Nat) (f : Nat → β) (i : Nat)
    (hi : i < n) :
    ((List.range n).map f).getD i default = f i := by
  rw [List.getD_eq_getElem _ _ (by simpa using hi)]
  simp

/-- C1: for planet sets with pairwise-distinct positions and positive time
step, `integrate` performs semi-implicit Euler per planet: the acceleration
is the spec's sum of unit vectors times `mass / distance²`, the new
velocity is `v + a * dt`, the new position uses the NEW velocity, and mass
and color pass through unchanged. -/
theorem integrate_semi_implicit_euler (time_step : ℝ) (planets : List Planet)
    (hdist : List.Pairwise (fun p q => p.position ≠ q.position) planets)
    (hdt : 0 < time_step) :
    integrate time_step planets = advanceSpec time_step planets ∧
    (integrate time_step planets).length = planets.length ∧
    (∀ i : Nat, i < planets.length →
      ((integrate time_step planets).getD i default).mass
          = (planets.getD i default).mass ∧
      ((integrate time_step planets).getD i default).color
          = (planets.getD i default).color) := by
  refine ⟨integrate_eq_advanceSpec time_step planets, by unfold integrate; simp, ?_⟩
  intro i hi
  unfold integrate
  rw [range_map_getD _ _ _ hi]
  exact ⟨rfl, rfl⟩

/-- First body of the concrete two-body system used as integrator input. -/
def pW1 : Planet :=
  { position := Vec.new 0 0, velocity := Vec.new 0 0, mass := 1, color := Color.RED }

/-- Second body, at distance 5 from the first. -/
def pW2 : Planet :=
  { position := Vec.new 3 4, velocity := Vec.new 0 0, mass := 2, color := Color.BLUE }

/-- Witness for C1 on a concrete distinct-position two-body system. -/
theorem integrate_semi_implicit_euler_witness :
    List.Pairwise (fun p q => p.position ≠ q.position) [pW1, pW2] ∧ (0 : ℝ) < 1 ∧
    integrate 1 [pW1, pW2] = advanceSpec 1 [pW1, pW2] := by
  have hd : List.Pairwise (fun p q => p.position ≠ q.position) [pW1, pW2] := by
    refine List.Pairwise.cons ?_ (List.Pairwise.cons (by simp) List.Pairwise.nil)
    intro q hq
    have hq2 : q = pW2 := by simpa using hq
    subst hq2
    intro hcontra
    have hx := congrArg Vec.x hcontra
    norm_num [pW1, pW2, Vec.new] at hx
  exact ⟨hd, by norm_num,
    (integrate_semi_implicit_euler 1 [pW1, pW2] hd (by norm_num)).1⟩

/-! ## Momentum conservation -/

theorem gravContrib_symm (planets : List Planet) (ii jj : Nat) :
    (gravContrib planets ii jj).scale (planets.getD ii default).mass
      = -((gravContrib planets jj ii).scale (planets.getD jj default).mass) := by
  simp only [gravContrib]
  rw [← neg_sub ((planets.getD jj default).position) ((planets.getD ii default).position)]
  rw [Vec.normalize_neg, Vec.len2_neg, Vec.neg_scale, Vec.neg_scale, neg_neg]
  rw [Vec.scale_scale, Vec.scale_scale]
  congr 1
  ring

theorem totalMomentum_integrate (dt : ℝ) (ps : List Planet) :
    totalMomentum (integrate dt ps) = totalMomentum ps := by
  have h1 : totalMomentum (integrate dt ps)
      = ∑ ii in Finset.range ps.length,
          (((ps.getD ii default).velocity + (accel ps ii).scale dt).scale
            (ps.getD ii default).mass) := by
    unfold totalMomentum integrate
    rw [List.map_map]
    exact range_map_sum _ ps.length
  have h2 : totalMomentum ps
      = ∑ ii in Finset.range ps.length,
          ((ps.getD ii default).velocity.scale (ps.getD ii default).mass) :=
    map_sum_eq_range_sum _ ps
  rw [h1, h2]
  have h3 : ∀ ii ∈ Finset.range ps.length,
      (((ps.getD ii default).velocity + (accel ps ii).scale dt).scale
          (ps.getD ii default).mass)
        = (ps.getD ii default).velocity.scale (ps.getD ii default).mass
            + (accel ps ii).scale (dt * (ps.getD ii default).mass) := by
    intro ii _
    rw [Vec.scale_add, Vec.scale_scale]
  rw [Finset.sum_congr rfl h3, Finset.sum_add_distrib]
  have h4 : ∀ ii ∈ Finset.range ps.length,
      (accel ps ii).scale (dt * (ps.getD ii default).mass)
        = ∑ j in Finset.range ps.length,
            (if ii ≠ j
              then (gravContrib ps ii j).scale (dt * (ps.getD ii default).mass)
              else 0) := by
    intro ii _
    rw [accel_eq_sum_ite, Vec.sum_scale]
    refine Finset.sum_congr rfl ?_
    intro j _
    by_cases h : ii = j <;> simp [h]
  rw [Finset.sum_congr rfl h4, ← Finset.sum_product']
  have hz : ∑ p in Finset.range ps.length ×ˢ Finset.range ps.length,
      (if p.1 ≠ p.2
        then (gravContrib ps p.1 p.2).scale (dt * (ps.getD p.1 default).mass)
        else 0) = 0 := by
    refine Finset.sum_involution (fun p _ => (p.2, p.1)) ?_ ?_ ?_ ?_
    · intro p hp
      by_cases h : p.1 = p.2
      · simp [h]
      · rw [if_pos h, if_pos (fun hh => h hh.symm)]
        rw [mul_comm dt ((ps.getD p.1 default).mass),
          mul_comm dt ((ps.getD p.2 default).mass),
          ← Vec.scale_scale, ← Vec.scale_scale]
        rw [gravContrib_symm ps p.1 p.2, Vec.neg_scale]
        exact neg_add_cancel _
    · intro p hp hne heq
      apply hne
      have h12 : p.2 = p.1 := congrArg Prod.fst heq
      rw [← h12]
      simp
    · intro p hp
      simp only [Finset.mem_product] at hp ⊢
      exact ⟨hp.2, hp.1⟩
    · intro p hp
      rfl
  rw [hz, add_zero]

/-- C9: under exact arithmetic, `integrate` conserves the total momentum
`Σ(mass_i * velocity_i)`, and the pairwise forces are symmetric: the force
of planet `jj` on planet `ii` is equal and opposite to the force of `ii` on
`jj`. -/
theorem momentum_conservation (dt : ℝ) (ps : List Planet)
    (hdist : List.Pairwise (fun p q => p.position ≠ q.position) ps)
    (hmass : ∀ p ∈ ps, 0 < p.mass) :
    totalMomentum (integrate dt ps) = totalMomentum ps ∧
    (∀ ii jj : Nat, forceOn ps ii jj = -(forceOn ps jj ii)) :=
  ⟨totalMomentum_integrate dt ps, fun ii jj => gravContrib_symm ps ii jj⟩

/-- Witness for C9 on the concrete distinct-position two-body system. -/
theorem momentum_conservation_witness :
    List.Pairwise (fun p q => p.position ≠ q.position) [pW1, pW2] ∧
    (∀ p ∈ [pW1, pW2], 0 < p.mass) ∧
    totalMomentum (integrate 1 [pW1, pW2]) = totalMomentum [pW1, pW2] := by
  have hd : List.Pairwise (fun p q => p.position ≠ q.position) [pW1, pW2] := by
    refine List.Pairwise.cons ?_ (List.Pairwise.cons (by simp) List.Pairwise.nil)
    intro q hq
    have hq2 : q = pW2 := by simpa using hq
    subst hq2
    intro hcontra
    have hx := congrArg Vec.x hcontra
    norm_num [pW1, pW2, Vec.new] at hx
  have hm : ∀ p ∈ [pW1, pW2], 0 < p.mass := by
    intro p hp
    simp only [List.mem_cons, List.not_mem_nil, or_false] at hp
    rcases hp with h | h <;> subst h <;> norm_num [pW1, pW2]
  exact ⟨hd, hm, (momentum_conservation 1 [pW1, pW2] hd hm).1⟩

/-! ## Viewpoint builder -/

theorem rotate_zero : Transform.rotate 0 = Transform.IDENTITY := by
  unfold Transform.rotate Transform.IDENTITY toRadians
  simp

theorem drawCenter_eq_centerSpec (s : Space) : s.drawCenter = centerSpec s := by
  unfold Space.drawCenter centerSpec
  cases s.centered_at <;> rfl

theorem drawView_eq_viewpointSpec (s : Space) : s.drawView = viewpointSpec s := by
  unfold Space.drawView viewpointSpec
  rw [drawCenter_eq_centerSpec s]
  cases hc : centerSpec s with
  | none => rfl
  | some center =>
      simp only [Option.some_bind]
      unfold Space.drawRotate orientationAngleSpec
      cases hr : s.rotate_with with
      | none => simp [rotate_zero]
      | some o =>
          cases o with
          | Barycenter => rfl
          | Planet i =>
              cases hpi : s.planets[i]? with
              | none => simp [hpi]
              | some p => simp [hpi]

/-- C7: the draw-time viewpoint is built exactly as the spec states — the
center is the barycenter or the referenced planet's position, the
orientation angle is 0 without a rotation lock and otherwise the negated
angle from the center to the rotate target, the view transform is that
rotation composed with translation by `-center`, and the viewport rectangle
itself is stored untransformed. -/
theorem viewpoint_construction (s : Space) (h : s.refsValid) :
    s.drawView = viewpointSpec s ∧
    (s.drawView).isSome ∧
    (∀ v : View, s.drawView = some v → v.rectangle = viewRectangle) := by
  refine ⟨drawView_eq_viewpointSpec s, drawView_isSome s h, ?_⟩
  intro v hv
  unfold Space.drawView at hv
  cases hcc : s.drawCenter with
  | none => rw [hcc] at hv; exact absurd hv (by simp)
  | some center =>
      rw [hcc] at hv
      simp only [Option.some_bind] at hv
      cases hrr : s.drawRotate center with
      | none => rw [hrr] at hv; exact absurd hv (by simp)
      | some rot =>
          rw [hrr] at hv
          simp only [Option.map_some', Option.some.injEq] at hv
          rw [← hv]

/-- Witness for C7 at the initial state. -/
theorem viewpoint_construction_witness :
    (Space.init LoadResult.err).refsValid ∧
    (Space.init LoadResult.err).drawView = viewpointSpec (Space.init LoadResult.err) := by
  have hv : (Space.init LoadResult.err).refsValid := by
    refine ⟨trivial, ?_⟩
    intro o ho
    simp [Space.init] at ho
  exact ⟨hv, (viewpoint_construction _ hv).1⟩
